import Mathlib

/-!
# Verification of the S3 client wrapper (`src/aws/s3_client.py`)

Shallow embedding of the `S3Client` class and of the object-storage service
it drives.  Strings are modelled as `List Char` (so Python's `startswith` /
`endswith` become list operations), byte buffers as `List Nat`.

The remote service is modelled by a `World`: the set of buckets (each a list
of keyed objects, in the service's listing order), the service-defined
listing page size (`list_objects_v2` returns at most one page and the
wrapper performs no continuation), and the local files visible to
`upload_file`.  Failures of the underlying SDK calls are injected by a
`FaultModel` mapping each call to an optional error.

Each Python method becomes a function returning a `Res α`: the new world,
the list of underlying SDK calls issued, the log entries emitted, and the
outcome (`Except` models raise-vs-return).
-/

set_option autoImplicit false

abbrev Str : Type := List Char

abbrev Bytes : Type := List Nat

/-- Helper to write `Str` literals. -/
def strL (s : String) : Str := s.data

/-- An object stored in a bucket: a key and its byte content. -/
structure S3Object where
  key : Str
  body : Bytes
deriving DecidableEq

/-- A bucket: its name and its objects, in the service's listing order. -/
structure Bucket where
  name : Str
  objects : List S3Object
deriving DecidableEq

/-- The world the client acts on: the remote service's buckets, the
service-defined page size of `list_objects_v2` responses, and the local
files available to `upload_file`. -/
structure World where
  pageSize : Nat
  buckets : List Bucket
  localFiles : List (Str × Bytes)
deriving DecidableEq

/-- Errors raised by the underlying SDK calls.  All constructors but the
last model `ClientError`s (service rejections); `injected n` stands for an
arbitrary such rejection.  `botoCore n` models a non-`ClientError`
exception raised by the SDK call itself (a `BotoCoreError`, e.g. a network
`EndpointConnectionError` or a `ParamValidationError`): these matter
because `create_bucket` and `delete_bucket` catch only `ClientError`. -/
inductive S3Error where
  | noSuchBucket (b : Str)
  | noSuchKey (b k : Str)
  | bucketAlreadyExists (b : Str)
  | bucketNotEmpty (b : Str)
  | fileNotFound (path : Str)
  | injected (code : Nat)
  | botoCore (code : Nat)
deriving DecidableEq

/-- Whether an exception is a `ClientError` (and so is caught by the
`except ClientError` clauses of `create_bucket` and `delete_bucket`). -/
def S3Error.isClientError : S3Error → Bool
  | .botoCore _ => false
  | _ => true

/-- The `CreateBucketConfiguration` dictionary passed to `create_bucket`. -/
structure CreateBucketConfig where
  locationConstraint : Option Str
deriving DecidableEq

/-- One underlying SDK call, as issued by the wrapper methods. -/
inductive Call where
  | listObjectsV2 (bucket pfx : Str)
  | deleteObject (bucket key : Str)
  | putObject (bucket key : Str) (body : Bytes)
  | getObject (bucket key : Str)
  | listBuckets
  | createBucket (bucket : Str) (config : Option CreateBucketConfig)
  | deleteBucket (bucket : Str)
  | uploadFile (filePath bucket key : Str)
deriving DecidableEq

/-- The wrapper method a log line comes from. -/
inductive OpName where
  | uploadFile
  | uploadFileFromBytes
  | getFileContent
  | listBuckets
  | listObjects
  | deleteObject
  | createBucket
  | deleteBucket
  | deleteDirectory
deriving DecidableEq

/-- A log entry: `logging.info` or `logging.error` emitted by a wrapper
method; error entries carry the exception being logged. -/
inductive LogEntry where
  | info (op : OpName)
  | error (op : OpName) (e : S3Error)
deriving DecidableEq

/-- Fault injection: which underlying calls fail, and with which error.
`none` means the call proceeds with the service's normal semantics. -/
abbrev FaultModel : Type := Call → Option S3Error

/-- The client handle built by `S3Client.__init__`: the construction inputs
it was bound to.  `region` models `self.s3.meta.region_name`. -/
structure S3Client where
  accessKey : Str
  secretKey : Str
  region : Option Str
  endpointUrl : Option Str
deriving DecidableEq

/-- Result of one wrapper method: final world, the SDK calls issued (in
order), the log entries emitted (in order), and raise-vs-return. -/
structure Res (α : Type) where
  world : World
  trace : List Call
  logs : List LogEntry
  result : Except S3Error α

/-- Python `s.endswith("/")`. -/
def pyEndsWithSlash (s : Str) : Bool := s.getLast? == some '/'

/-- `if directory and not directory.endswith("/"): directory += "/"`. -/
def normalizeDirectory (d : Str) : Str :=
  if !d.isEmpty && !pyEndsWithSlash d then d ++ ['/'] else d

/-- Look a bucket up by name. -/
def findBucket (w : World) (b : Str) : Option Bucket :=
  w.buckets.find? (fun bk => bk.name == b)

/-- Replace the objects of the bucket named `b` (names are preserved). -/
def updateBucket (w : World) (b : Str) (f : Bucket → Bucket) : World :=
  { w with buckets := w.buckets.map (fun bk => if bk.name == b then f bk else bk) }

/-- The `list_objects_v2` response body: `Contents` is absent when nothing
matched, and at most `pageSize` objects are returned. -/
structure ListResp where
  contents : Option (List S3Object)
  isTruncated : Bool
deriving DecidableEq

/-- Service semantics of `list_objects_v2`: the objects of the bucket whose
keys start with `pfx`, truncated to one page. -/
def svcListObjectsV2 (w : World) (b pfx : Str) : Except S3Error ListResp :=
  match findBucket w b with
  | none => .error (.noSuchBucket b)
  | some bk =>
    let ms := bk.objects.filter (fun o => pfx.isPrefixOf o.key)
    let page := ms.take w.pageSize
    .ok ⟨if page.isEmpty then none else some page, decide (w.pageSize < ms.length)⟩

/-- Service semantics of `delete_object`: deleting a missing key is a
no-op success; a missing bucket is an error. -/
def svcDeleteObject (w : World) (b k : Str) : Except S3Error World :=
  match findBucket w b with
  | none => .error (.noSuchBucket b)
  | some _ => .ok (updateBucket w b
      (fun bk => { bk with objects := bk.objects.filter (fun o => o.key != k) }))

/-- Service semantics of `put_object`: create or overwrite the object. -/
def svcPutObject (w : World) (b k : Str) (body : Bytes) : Except S3Error World :=
  match findBucket w b with
  | none => .error (.noSuchBucket b)
  | some _ => .ok (updateBucket w b
      (fun bk => { bk with objects := bk.objects.filter (fun o => o.key != k) ++ [⟨k, body⟩] }))

/-- Service semantics of `get_object`. -/
def svcGetObject (w : World) (b k : Str) : Except S3Error Bytes :=
  match findBucket w b with
  | none => .error (.noSuchBucket b)
  | some bk =>
    match bk.objects.find? (fun o => o.key == k) with
    | none => .error (.noSuchKey b k)
    | some o => .ok o.body

/-- Service semantics of `list_buckets`. -/
def svcListBuckets (w : World) : Except S3Error (List Str) :=
  .ok (w.buckets.map (fun bk => bk.name))

/-- Service semantics of `create_bucket` (the configuration dictionary is
carried on the call; the service only checks for name clashes here). -/
def svcCreateBucket (w : World) (b : Str) (_cfg : Option CreateBucketConfig) :
    Except S3Error World :=
  match findBucket w b with
  | some _ => .error (.bucketAlreadyExists b)
  | none => .ok { w with buckets := w.buckets ++ [⟨b, []⟩] }

/-- Service semantics of `delete_bucket`: only an empty bucket may go. -/
def svcDeleteBucket (w : World) (b : Str) : Except S3Error World :=
  match findBucket w b with
  | none => .error (.noSuchBucket b)
  | some bk =>
    if bk.objects.isEmpty then
      .ok { w with buckets := w.buckets.filter (fun x => x.name != b) }
    else .error (.bucketNotEmpty b)

/-- Service semantics of `upload_file`: read the local file, then put. -/
def svcUploadFile (w : World) (path b k : Str) : Except S3Error World :=
  match w.localFiles.find? (fun pr => pr.1 == path) with
  | none => .error (.fileNotFound path)
  | some pr => svcPutObject w b k pr.2

/-- Apply fault injection to an underlying call's normal outcome. -/
def inj {α : Type} (fm : FaultModel) (c : Call) (x : Except S3Error α) :
    Except S3Error α :=
  match fm c with
  | some e => .error e
  | none => x

/-- `S3Client.upload_file`: one SDK call; on failure log the error and
re-raise it unchanged. -/
def S3Client.upload_file (_cl : S3Client) (fm : FaultModel) (w : World)
    (file_path bucket_name s3_key : Str) : Res Unit :=
  match inj fm (.uploadFile file_path bucket_name s3_key)
      (svcUploadFile w file_path bucket_name s3_key) with
  | .ok w' => ⟨w', [.uploadFile file_path bucket_name s3_key], [.info .uploadFile], .ok ()⟩
  | .error e => ⟨w, [.uploadFile file_path bucket_name s3_key], [.error .uploadFile e], .error e⟩

/-- `S3Client.upload_file_from_bytes`: `put_object` with the given body. -/
def S3Client.upload_file_from_bytes (_cl : S3Client) (fm : FaultModel) (w : World)
    (file_bytes : Bytes) (bucket_name s3_key : Str) : Res Unit :=
  match inj fm (.putObject bucket_name s3_key file_bytes)
      (svcPutObject w bucket_name s3_key file_bytes) with
  | .ok w' => ⟨w', [.putObject bucket_name s3_key file_bytes], [.info .uploadFileFromBytes], .ok ()⟩
  | .error e => ⟨w, [.putObject bucket_name s3_key file_bytes], [.error .uploadFileFromBytes e], .error e⟩

/-- `S3Client.get_file_content`: `get_object` and read the body. -/
def S3Client.get_file_content (_cl : S3Client) (fm : FaultModel) (w : World)
    (bucket_name s3_key : Str) : Res Bytes :=
  match inj fm (.getObject bucket_name s3_key) (svcGetObject w bucket_name s3_key) with
  | .ok content => ⟨w, [.getObject bucket_name s3_key], [.info .getFileContent], .ok content⟩
  | .error e => ⟨w, [.getObject bucket_name s3_key], [.error .getFileContent e], .error e⟩

/-- `S3Client.list_buckets`. -/
def S3Client.list_buckets (_cl : S3Client) (fm : FaultModel) (w : World) :
    Res (List Str) :=
  match inj fm .listBuckets (svcListBuckets w) with
  | .ok names => ⟨w, [.listBuckets], [.info .listBuckets], .ok names⟩
  | .error e => ⟨w, [.listBuckets], [.error .listBuckets e], .error e⟩

/-- `S3Client.list_objects`: one `list_objects_v2` call (no pagination
continuation); `response.get("Contents", [])`, then extract the keys. -/
def S3Client.list_objects (_cl : S3Client) (fm : FaultModel) (w : World)
    (bucket_name : Str) (pfx : Str := []) : Res (List Str) :=
  match inj fm (.listObjectsV2 bucket_name pfx) (svcListObjectsV2 w bucket_name pfx) with
  | .ok resp =>
    let objects := resp.contents.getD []
    let file_list := objects.map (fun o => o.key)
    ⟨w, [.listObjectsV2 bucket_name pfx], [.info .listObjects], .ok file_list⟩
  | .error e => ⟨w, [.listObjectsV2 bucket_name pfx], [.error .listObjects e], .error e⟩

/-- `S3Client.delete_object`. -/
def S3Client.delete_object (_cl : S3Client) (fm : FaultModel) (w : World)
    (bucket_name s3_key : Str) : Res Unit :=
  match inj fm (.deleteObject bucket_name s3_key) (svcDeleteObject w bucket_name s3_key) with
  | .ok w' => ⟨w', [.deleteObject bucket_name s3_key], [.info .deleteObject], .ok ()⟩
  | .error e => ⟨w, [.deleteObject bucket_name s3_key], [.error .deleteObject e], .error e⟩

/-- `S3Client.create_bucket`: always passes a `CreateBucketConfiguration`
whose `LocationConstraint` is `self.s3.meta.region_name` (the client's
region, possibly `None`).  Unlike the other methods, its `except` clause
catches only `ClientError`: a non-`ClientError` failure propagates to the
caller without the error log line. -/
def S3Client.create_bucket (cl : S3Client) (fm : FaultModel) (w : World)
    (bucket_name : Str) : Res Unit :=
  match inj fm (.createBucket bucket_name (some ⟨cl.region⟩))
      (svcCreateBucket w bucket_name (some ⟨cl.region⟩)) with
  | .ok w' => ⟨w', [.createBucket bucket_name (some ⟨cl.region⟩)], [.info .createBucket], .ok ()⟩
  | .error e => ⟨w, [.createBucket bucket_name (some ⟨cl.region⟩)],
      if e.isClientError then [.error .createBucket e] else [], .error e⟩

/-- `S3Client.delete_bucket`.  Like `create_bucket`, its `except` clause
catches only `ClientError`: a non-`ClientError` failure propagates to the
caller without the error log line. -/
def S3Client.delete_bucket (_cl : S3Client) (fm : FaultModel) (w : World)
    (bucket_name : Str) : Res Unit :=
  match inj fm (.deleteBucket bucket_name) (svcDeleteBucket w bucket_name) with
  | .ok w' => ⟨w', [.deleteBucket bucket_name], [.info .deleteBucket], .ok ()⟩
  | .error e => ⟨w, [.deleteBucket bucket_name],
      if e.isClientError then [.error .deleteBucket e] else [], .error e⟩

/-- The `for obj_key in objects: self.delete_object(...)` loop of
`delete_directory`: stop at the first failing deletion. -/
def deleteLoop (cl : S3Client) (fm : FaultModel) (w : World) (bucket_name : Str) :
    List Str → Res Unit
  | [] => ⟨w, [], [], .ok ()⟩
  | k :: ks =>
    match cl.delete_object fm w bucket_name k with
    | ⟨w', t, l, .ok _⟩ =>
      let r := deleteLoop cl fm w' bucket_name ks
      ⟨r.world, t ++ r.trace, l ++ r.logs, r.result⟩
    | ⟨w', t, l, .error e⟩ => ⟨w', t, l, .error e⟩

/-- `S3Client.delete_directory`: normalize the prefix, list, delete each
listed key via `delete_object`; the outer `except` logs and re-raises. -/
def S3Client.delete_directory (cl : S3Client) (fm : FaultModel) (w : World)
    (bucket_name directory : Str) : Res Unit :=
  let d := normalizeDirectory directory
  match cl.list_objects fm w bucket_name d with
  | ⟨w', t, l, .ok objects⟩ =>
    match deleteLoop cl fm w' bucket_name objects with
    | ⟨w'', t', l', .ok _⟩ =>
      ⟨w'', t ++ t', l ++ l' ++ [.info .deleteDirectory], .ok ()⟩
    | ⟨w'', t', l', .error e⟩ =>
      ⟨w'', t ++ t', l ++ l' ++ [.error .deleteDirectory e], .error e⟩
  | ⟨w', t, l, .error e⟩ => ⟨w', t, l ++ [.error .deleteDirectory e], .error e⟩

/-- The keys of a bucket, in service order. -/
def bucketKeys (bk : Bucket) : List Str := bk.objects.map (fun o => o.key)

/-- The keys of a bucket that start with `pfx`, in service order (the full
match set, before page truncation). -/
def matchingKeys (bk : Bucket) (pfx : Str) : List Str :=
  (bk.objects.filter (fun o => pfx.isPrefixOf o.key)).map (fun o => o.key)

/-- A fault model injecting no failures. -/
def noFault : FaultModel := fun _ => none

/-- A fault model failing every underlying call with the same error. -/
def failAll : FaultModel := fun _ => some (.injected 7)

/-- A fault model failing every underlying call with the same
non-`ClientError` (`BotoCoreError`) exception. -/
def failBotoCore : FaultModel := fun _ => some (.botoCore 9)

/-- A fault model failing only the deletion of `"logs/2.txt"`. -/
def failSecondLog : FaultModel := fun c =>
  match c with
  | .deleteObject _ k => if k == strL "logs/2.txt" then some (.injected 3) else none
  | _ => none

/-- A concrete client handle. -/
def cl0 : S3Client := ⟨strL "AK", strL "SK", none, none⟩

/-- The spec's scenario bucket: keys `logs/1.txt`, `logs/2.txt`, `data.csv`. -/
def demoBucket : Bucket :=
  ⟨strL "b", [⟨strL "logs/1.txt", []⟩, ⟨strL "logs/2.txt", []⟩, ⟨strL "data.csv", []⟩]⟩

/-- The scenario world, with the service's default page size of 1000. -/
def demoWorld : World := ⟨1000, [demoBucket], []⟩

/-- A bucket with two keys that both start with `"a"`. -/
def smallPageBucket : Bucket := ⟨strL "b", [⟨strL "a1", []⟩, ⟨strL "a2", []⟩]⟩

/-- A world whose service page size (1) is smaller than the bucket's object
count, so listings are truncated. -/
def smallPageWorld : World := ⟨1, [smallPageBucket], []⟩

/-- A bucket holding two keys under the `logs/` prefix. -/
def logsPageBucket : Bucket :=
  ⟨strL "b", [⟨strL "logs/1.txt", []⟩, ⟨strL "logs/2.txt", []⟩]⟩

/-- A world where the two `logs/` keys exceed the service page size (1),
so the deletion loop of `delete_directory` sees only the first of them. -/
def logsPageWorld : World := ⟨1, [logsPageBucket], []⟩

/-- An empty bucket `"b"` for the round-trip scenario. -/
def emptyBWorld : World := ⟨1000, [⟨strL "b", []⟩], []⟩

/-- The bytes of the JSON payload of the spec's round-trip scenario. -/
def demoJsonBytes : Bytes :=
  (strL "\x7b\"name\":\"Bob\",\"age\":69\x7d").map Char.toNat

/-! ## Basic lemmas about the embedding -/

theorem inj_none {α : Type} {fm : FaultModel} {c : Call} (x : Except S3Error α)
    (h : fm c = none) : inj fm c x = x := by
  simp [inj, h]

theorem inj_some {α : Type} {fm : FaultModel} {c : Call} {e : S3Error}
    (x : Except S3Error α) (h : fm c = some e) : inj fm c x = .error e := by
  simp [inj, h]

theorem find?_map_update (b : Str) (f : Bucket → Bucket)
    (hf : ∀ x, (f x).name = x.name) :
    ∀ (l : List Bucket) (bk : Bucket),
      l.find? (fun x => x.name == b) = some bk →
      (l.map (fun x => if x.name == b then f x else x)).find? (fun x => x.name == b) =
        some (f bk) := by
  intro l
  induction l with
  | nil => intro bk h; simp at h
  | cons x xs ih =>
    intro bk h
    by_cases hx : (x.name == b) = true
    · rw [List.find?_cons_of_pos (p := fun y : Bucket => y.name == b) _ hx] at h
      cases h
      simp only [List.map_cons, if_pos hx]
      exact List.find?_cons_of_pos (p := fun y : Bucket => y.name == b) _
        (by show ((f x).name == b) = true; rw [hf x]; exact hx)
    · rw [List.find?_cons_of_neg (p := fun y : Bucket => y.name == b) _ hx] at h
      simp only [List.map_cons, if_neg hx]
      rw [List.find?_cons_of_neg (p := fun y : Bucket => y.name == b) _ hx]
      exact ih bk h

theorem findBucket_updateBucket {w : World} {b : Str} {bk : Bucket}
    (f : Bucket → Bucket) (hf : ∀ x, (f x).name = x.name)
    (h : findBucket w b = some bk) :
    findBucket (updateBucket w b f) b = some (f bk) := by
  unfold findBucket updateBucket at *
  exact find?_map_update b f hf _ bk h

theorem delete_object_ok (cl : S3Client) {fm : FaultModel} {w : World}
    {b : Str} (k : Str) {bk : Bucket}
    (hfm : fm (.deleteObject b k) = none) (hb : findBucket w b = some bk) :
    cl.delete_object fm w b k =
      ⟨updateBucket w b (fun x => { x with objects := x.objects.filter (fun o => o.key != k) }),
        [.deleteObject b k], [.info .deleteObject], .ok ()⟩ := by
  unfold S3Client.delete_object
  rw [inj_none _ hfm]
  unfold svcDeleteObject
  rw [hb]

theorem delete_object_fail (cl : S3Client) {fm : FaultModel} (w : World)
    {b : Str} (k : Str) {e : S3Error}
    (hfm : fm (.deleteObject b k) = some e) :
    cl.delete_object fm w b k =
      ⟨w, [.deleteObject b k], [.error .deleteObject e], .error e⟩ := by
  unfold S3Client.delete_object
  rw [inj_some _ hfm]

theorem list_objects_ok (cl : S3Client) {fm : FaultModel} {w : World}
    {b : Str} (pfx : Str) {bk : Bucket}
    (hfm : fm (.listObjectsV2 b pfx) = none) (hb : findBucket w b = some bk) :
    cl.list_objects fm w b pfx =
      ⟨w, [.listObjectsV2 b pfx], [.info .listObjects],
        .ok ((matchingKeys bk pfx).take w.pageSize)⟩ := by
  unfold S3Client.list_objects
  rw [inj_none _ hfm]
  unfold svcListObjectsV2
  rw [hb]
  simp only [matchingKeys, ← List.map_take]
  by_cases hp : ((bk.objects.filter (fun o => pfx.isPrefixOf o.key)).take w.pageSize).isEmpty
  · simp [hp, List.isEmpty_iff.mp hp]
  · simp [hp]

theorem list_objects_fail (cl : S3Client) {fm : FaultModel} (w : World)
    {b : Str} (pfx : Str) {e : S3Error}
    (hfm : fm (.listObjectsV2 b pfx) = some e) :
    cl.list_objects fm w b pfx =
      ⟨w, [.listObjectsV2 b pfx], [.error .listObjects e], .error e⟩ := by
  unfold S3Client.list_objects
  rw [inj_some _ hfm]

theorem filter_contains_cons (l : List S3Object) (k : Str) (ks : List Str) :
    (l.filter (fun o => o.key != k)).filter (fun o => !(ks.contains o.key)) =
      l.filter (fun o => !((k :: ks).contains o.key)) := by
  rw [List.filter_filter]
  apply List.filter_congr
  intro o _
  simp only [List.contains_cons, Bool.not_or, bne]
  rw [Bool.and_comm]

/-- Fault-free run of the deletion loop of `delete_directory`: one
`delete_object` call per key, in order, and exactly the listed keys are
removed from the bucket. -/
theorem deleteLoop_ok (cl : S3Client) (fm : FaultModel) (b : Str) :
    ∀ (ks : List Str) (w : World) (bk : Bucket),
      (∀ k ∈ ks, fm (.deleteObject b k) = none) →
      findBucket w b = some bk →
      ∃ w', deleteLoop cl fm w b ks =
          ⟨w', ks.map (Call.deleteObject b),
            ks.map (fun _ => LogEntry.info .deleteObject), .ok ()⟩ ∧
        findBucket w' b = some ⟨bk.name, bk.objects.filter (fun o => !(ks.contains o.key))⟩ := by
  intro ks
  induction ks with
  | nil =>
    intro w bk _ hb
    refine ⟨w, rfl, ?_⟩
    have he : bk.objects.filter (fun o => !(List.contains [] o.key)) = bk.objects := by
      simp [List.contains]
    rw [he]
    exact hb
  | cons k ks ih =>
    intro w bk hfm hb
    have hk : fm (.deleteObject b k) = none := hfm k (by simp)
    obtain ⟨w', heq, hfind⟩ :=
      ih (updateBucket w b (fun x => { x with objects := x.objects.filter (fun o => o.key != k) }))
        ⟨bk.name, bk.objects.filter (fun o => o.key != k)⟩
        (fun k' hk' => hfm k' (by simp [hk']))
        (findBucket_updateBucket _ (fun x => rfl) hb)
    refine ⟨w', ?_, ?_⟩
    · unfold deleteLoop
      rw [delete_object_ok cl k hk hb]
      simp only [heq, List.map_cons, List.singleton_append]
    · rw [hfind]
      rw [filter_contains_cons]

/-- Run of the deletion loop hitting its first failing deletion: the keys
before the failure are removed, the loop stops at the failing call, the
error is re-raised, and nothing is rolled back. -/
theorem deleteLoop_fail (cl : S3Client) (fm : FaultModel) (b : Str)
    (kf : Str) (e : S3Error) (rest : List Str) :
    ∀ (done : List Str) (w : World) (bk : Bucket),
      (∀ k ∈ done, fm (.deleteObject b k) = none) →
      fm (.deleteObject b kf) = some e →
      findBucket w b = some bk →
      ∃ w', deleteLoop cl fm w b (done ++ kf :: rest) =
          ⟨w', done.map (Call.deleteObject b) ++ [.deleteObject b kf],
            done.map (fun _ => LogEntry.info .deleteObject) ++ [.error .deleteObject e],
            .error e⟩ ∧
        findBucket w' b = some ⟨bk.name, bk.objects.filter (fun o => !(done.contains o.key))⟩ := by
  intro done
  induction done with
  | nil =>
    intro w bk _ hkf hb
    refine ⟨w, ?_, ?_⟩
    · rw [List.nil_append]
      unfold deleteLoop
      rw [delete_object_fail cl w kf hkf]
      simp only [List.map_nil, List.nil_append]
    · have he : bk.objects.filter (fun o => !(List.contains [] o.key)) = bk.objects := by
        simp [List.contains]
      rw [he]
      exact hb
  | cons k done ih =>
    intro w bk hfm hkf hb
    have hk : fm (.deleteObject b k) = none := hfm k (by simp)
    obtain ⟨w', heq, hfind⟩ :=
      ih (updateBucket w b (fun x => { x with objects := x.objects.filter (fun o => o.key != k) }))
        ⟨bk.name, bk.objects.filter (fun o => o.key != k)⟩
        (fun k' hk' => hfm k' (by simp [hk']))
        hkf
        (findBucket_updateBucket _ (fun x => rfl) hb)
    refine ⟨w', ?_, ?_⟩
    · show deleteLoop cl fm w b (k :: (done ++ kf :: rest)) = _
      unfold deleteLoop
      rw [delete_object_ok cl k hk hb]
      simp only [heq, List.map_cons, List.singleton_append, List.cons_append, List.nil_append]
    · rw [hfind]
      rw [filter_contains_cons]

/-- Fault-free run of `delete_directory`: one listing call with the
normalized prefix, then one `delete_object` per listed key, in listing
order; exactly those keys are removed. -/
theorem delete_directory_run (cl : S3Client) {fm : FaultModel} {w : World}
    {b : Str} (d : Str) {bk : Bucket}
    (hfm : ∀ c, fm c = none) (hb : findBucket w b = some bk) :
    ∃ w', cl.delete_directory fm w b d =
        ⟨w',
          .listObjectsV2 b (normalizeDirectory d) ::
            ((matchingKeys bk (normalizeDirectory d)).take w.pageSize).map (Call.deleteObject b),
          .info .listObjects ::
            (((matchingKeys bk (normalizeDirectory d)).take w.pageSize).map
              (fun _ => LogEntry.info .deleteObject) ++ [.info .deleteDirectory]),
          .ok ()⟩ ∧
      findBucket w' b = some ⟨bk.name, bk.objects.filter
        (fun o => !(((matchingKeys bk (normalizeDirectory d)).take w.pageSize).contains o.key))⟩ := by
  obtain ⟨w', heq, hfind⟩ := deleteLoop_ok cl fm b
    ((matchingKeys bk (normalizeDirectory d)).take w.pageSize) w bk
    (fun k _ => hfm _) hb
  refine ⟨w', ?_, hfind⟩
  simp only [S3Client.delete_directory]
  rw [list_objects_ok cl (normalizeDirectory d) (hfm _) hb]
  simp only [heq, List.singleton_append, List.cons_append, List.nil_append, List.append_assoc]

/-- `delete_directory` when the listing call itself fails: the error is
logged by `list_objects`, logged again by the outer handler, and re-raised
unchanged; the world is untouched. -/
theorem delete_directory_fail_list (cl : S3Client) {fm : FaultModel} (w : World)
    {b : Str} (d : Str) {e : S3Error}
    (hfm : fm (.listObjectsV2 b (normalizeDirectory d)) = some e) :
    cl.delete_directory fm w b d =
      ⟨w, [.listObjectsV2 b (normalizeDirectory d)],
        [.error .listObjects e, .error .deleteDirectory e], .error e⟩ := by
  simp only [S3Client.delete_directory]
  rw [list_objects_fail cl w (normalizeDirectory d) hfm]
  rfl

/-- `delete_directory` when one of the deletions fails: the keys listed
before the failing one are removed and stay removed, the loop stops at the
failing call, and the error is re-raised unchanged. -/
theorem delete_directory_fail_delete (cl : S3Client) {fm : FaultModel} {w : World}
    {b : Str} (d : Str) {bk : Bucket} {done : List Str} {kf : Str}
    {rest : List Str} {e : S3Error}
    (hlist : fm (.listObjectsV2 b (normalizeDirectory d)) = none)
    (hb : findBucket w b = some bk)
    (hsplit : (matchingKeys bk (normalizeDirectory d)).take w.pageSize = done ++ kf :: rest)
    (hdone : ∀ k ∈ done, fm (.deleteObject b k) = none)
    (hkf : fm (.deleteObject b kf) = some e) :
    ∃ w', cl.delete_directory fm w b d =
        ⟨w',
          .listObjectsV2 b (normalizeDirectory d) ::
            (done.map (Call.deleteObject b) ++ [.deleteObject b kf]),
          .info .listObjects ::
            ((done.map (fun _ => LogEntry.info .deleteObject) ++ [.error .deleteObject e]) ++
              [.error .deleteDirectory e]),
          .error e⟩ ∧
      findBucket w' b = some ⟨bk.name, bk.objects.filter (fun o => !(done.contains o.key))⟩ := by
  obtain ⟨w', heq, hfind⟩ := deleteLoop_fail cl fm b kf e rest done w bk hdone hkf hb
  refine ⟨w', ?_, hfind⟩
  simp only [S3Client.delete_directory]
  rw [list_objects_ok cl (normalizeDirectory d) hlist hb, hsplit]
  simp only [heq, List.singleton_append, List.cons_append, List.nil_append, List.append_assoc]

/-- Looking up key `k` after an overwrite-put finds exactly the new body. -/
theorem find?_key_filter_append (l : List S3Object) (k : Str) (body : Bytes) :
    ((l.filter (fun o => o.key != k)) ++ [S3Object.mk k body]).find? (fun o => o.key == k) =
      some ⟨k, body⟩ := by
  induction l with
  | nil =>
    simp only [List.filter_nil, List.nil_append]
    exact List.find?_cons_of_pos (p := fun o : S3Object => o.key == k) _ (by simp)
  | cons x xs ih =>
    by_cases hx : (x.key != k) = true
    · rw [List.filter_cons_of_pos (p := fun o : S3Object => o.key != k) hx, List.cons_append]
      rw [List.find?_cons_of_neg (p := fun o : S3Object => o.key == k)]
      · exact ih
      · simp only [bne, Bool.not_eq_true'] at hx
        simp [hx]
    · rw [List.filter_cons_of_neg (p := fun o : S3Object => o.key != k) hx]
      exact ih

/-! ## Claim theorems -/

/-- C1 counterexample: with service page size 1 and a bucket holding the
keys `logs/1.txt` and `logs/2.txt`, `delete_directory` with prefix `logs`
succeeds after deleting only the first listed key: `logs/2.txt` starts with
the normalized prefix `logs/` yet is never passed to `delete_object` and
survives, so the operation does not list-and-delete all object keys under
the prefix. -/
theorem C1_counterexample_pagination :
    (cl0.delete_directory noFault logsPageWorld (strL "b") (strL "logs")).result = .ok () ∧
    (cl0.delete_directory noFault logsPageWorld (strL "b") (strL "logs")).trace =
      [.listObjectsV2 (strL "b") (strL "logs/"),
        .deleteObject (strL "b") (strL "logs/1.txt")] ∧
    (strL "logs/").isPrefixOf (strL "logs/2.txt") = true ∧
    Call.deleteObject (strL "b") (strL "logs/2.txt") ∉
      (cl0.delete_directory noFault logsPageWorld (strL "b") (strL "logs")).trace ∧
    findBucket (cl0.delete_directory noFault logsPageWorld (strL "b") (strL "logs")).world
      (strL "b") = some ⟨strL "b", [⟨strL "logs/2.txt", []⟩]⟩ := by
  refine ⟨rfl, rfl, rfl, ?_, rfl⟩
  have h : (cl0.delete_directory noFault logsPageWorld (strL "b") (strL "logs")).trace =
      [.listObjectsV2 (strL "b") (strL "logs/"),
        .deleteObject (strL "b") (strL "logs/1.txt")] := rfl
  rw [h]
  decide

/-- C1 (amended): `delete_directory` performs exactly these steps in order:
append '/' to a non-empty prefix not already ending in '/'; issue one
listing call with the normalized prefix, which returns the keys under it up
to the single service page; then delete each listed key sequentially, in
listing order, via `delete_object` — so all keys under the prefix are
deleted exactly when they fit in one page.  On the bucket holding exactly
`logs/1.txt`, `logs/2.txt`, `data.csv`, calling it with prefix `logs`
succeeds, leaves exactly `data.csv`, and a subsequent `list_objects` with
empty prefix returns `[data.csv]`. -/
theorem C1_delete_directory_amended :
    (∀ d : Str,
      (d ≠ [] → pyEndsWithSlash d = false → normalizeDirectory d = d ++ ['/']) ∧
      (pyEndsWithSlash d = true → normalizeDirectory d = d) ∧
      normalizeDirectory [] = []) ∧
    (∀ (cl : S3Client) (fm : FaultModel) (w : World) (b d : Str) (bk : Bucket),
      (∀ c, fm c = none) → findBucket w b = some bk →
      ∃ w', cl.delete_directory fm w b d =
          ⟨w',
            .listObjectsV2 b (normalizeDirectory d) ::
              ((matchingKeys bk (normalizeDirectory d)).take w.pageSize).map
                (Call.deleteObject b),
            .info .listObjects ::
              (((matchingKeys bk (normalizeDirectory d)).take w.pageSize).map
                (fun _ => LogEntry.info .deleteObject) ++ [.info .deleteDirectory]),
            .ok ()⟩ ∧
        findBucket w' b = some ⟨bk.name, bk.objects.filter
          (fun o => !(((matchingKeys bk (normalizeDirectory d)).take w.pageSize).contains
            o.key))⟩) ∧
    ((cl0.delete_directory noFault demoWorld (strL "b") (strL "logs")).result = .ok () ∧
      findBucket (cl0.delete_directory noFault demoWorld (strL "b") (strL "logs")).world
        (strL "b") = some ⟨strL "b", [⟨strL "data.csv", []⟩]⟩ ∧
      (cl0.list_objects noFault
        (cl0.delete_directory noFault demoWorld (strL "b") (strL "logs")).world
        (strL "b") []).result = .ok [strL "data.csv"]) := by
  refine ⟨?_, ?_, rfl, rfl, rfl⟩
  · intro d
    refine ⟨?_, ?_, rfl⟩
    · intro hne hsl
      have he : d.isEmpty = false := by
        cases d
        · exact absurd rfl hne
        · rfl
      simp [normalizeDirectory, he, hsl]
    · intro hsl
      simp [normalizeDirectory, hsl]
  · intro cl fm w b d bk hfm hb
    exact delete_directory_run cl d hfm hb

/-- C1 witness: the theorem applied to the scenario input gives the exact
call trace: one listing with `logs/`, then the two deletions in order. -/
theorem C1_witness :
    (cl0.delete_directory noFault demoWorld (strL "b") (strL "logs")).trace =
      [.listObjectsV2 (strL "b") (strL "logs/"),
        .deleteObject (strL "b") (strL "logs/1.txt"),
        .deleteObject (strL "b") (strL "logs/2.txt")] := by
  obtain ⟨w', heq, -⟩ := C1_delete_directory_amended.2.1 cl0 noFault demoWorld
    (strL "b") (strL "logs") demoBucket (fun c => rfl) rfl
  rw [heq]
  rfl

theorem matchingKeys_nil (bk : Bucket) :
    matchingKeys bk [] = bk.objects.map (fun o => o.key) := by
  unfold matchingKeys
  have h1 : bk.objects.filter (fun o => List.isPrefixOf [] o.key) =
      bk.objects.filter (fun _ => true) :=
    List.filter_congr (fun x _ => by simp [List.isPrefixOf])
  rw [h1, List.filter_true]

/-- C3 counterexample: with service page size 1 and a bucket holding two
objects, `delete_directory` with the empty prefix succeeds but leaves an
object behind (the single listing page missed it), so it does not delete
every object in the bucket. -/
theorem C3_counterexample_pagination :
    (cl0.delete_directory noFault smallPageWorld (strL "b") []).result = .ok () ∧
    findBucket (cl0.delete_directory noFault smallPageWorld (strL "b") []).world (strL "b") =
      some ⟨strL "b", [⟨strL "a2", []⟩]⟩ ∧
    ¬((findBucket (cl0.delete_directory noFault smallPageWorld (strL "b") []).world
        (strL "b")).map (fun bk => bk.objects) = some []) := by
  refine ⟨rfl, rfl, ?_⟩
  intro h
  have h2 : (findBucket (cl0.delete_directory noFault smallPageWorld (strL "b") []).world
      (strL "b")).map (fun bk => bk.objects) = some [⟨strL "a2", []⟩] := rfl
  rw [h2] at h
  simp at h

/-- C3 (amended): the empty prefix is passed through unmodified and the
listing step matches all keys; every key of the single listing page is
deleted, so whenever the bucket's object count is at most the service page
size, every object in the bucket is deleted. -/
theorem C3_empty_prefix_amended :
    ∀ (cl : S3Client) (fm : FaultModel) (w : World) (b : Str) (bk : Bucket),
      (∀ c, fm c = none) → findBucket w b = some bk →
      bk.objects.length ≤ w.pageSize →
      normalizeDirectory [] = [] ∧
      ∃ w' ls, cl.delete_directory fm w b [] =
          ⟨w',
            .listObjectsV2 b [] :: (bk.objects.map (fun o => o.key)).map (Call.deleteObject b),
            ls, .ok ()⟩ ∧
        findBucket w' b = some ⟨bk.name, []⟩ := by
  intro cl fm w b bk hfm hb hlen
  refine ⟨rfl, ?_⟩
  obtain ⟨w', heq, hfind⟩ := delete_directory_run cl [] hfm hb
  have hnorm : normalizeDirectory ([] : Str) = [] := rfl
  rw [hnorm, matchingKeys_nil bk] at heq hfind
  rw [List.take_of_length_le (by rw [List.length_map]; exact hlen)] at heq hfind
  have hz : bk.objects.filter
      (fun o => !((bk.objects.map (fun o => o.key)).contains o.key)) = [] := by
    apply List.filter_eq_nil_iff.mpr
    intro o ho
    have hc : List.elem o.key (bk.objects.map (fun o => o.key)) = true :=
      List.elem_iff.mpr (List.mem_map.mpr ⟨o, ho, rfl⟩)
    simp [List.contains, hc]
    exact ⟨o, ho, rfl⟩
  rw [hz] at hfind
  exact ⟨w', _, heq, hfind⟩

/-- C3 witness: on the scenario bucket (3 objects, page size 1000) the
amended theorem empties the bucket. -/
theorem C3_witness :
    findBucket (cl0.delete_directory noFault demoWorld (strL "b") []).world (strL "b") =
      some ⟨strL "b", []⟩ := by
  obtain ⟨-, w', ls, heq, hfind⟩ := C3_empty_prefix_amended cl0 noFault demoWorld (strL "b")
    demoBucket (fun c => rfl) rfl (by decide)
  rw [heq]
  exact hfind

/-- C4: `delete_directory` is not atomic.  If a deletion step fails, the
keys listed before it are deleted and stay deleted, the remaining keys are
untouched, and the caller gets only the re-raised error (never a
partial-success report); if the listing step fails, nothing is deleted and
the error is re-raised.  Either way the outcome is a terminal error. -/
theorem C4_not_atomic :
    (∀ (cl : S3Client) (fm : FaultModel) (w : World) (b d : Str) (bk : Bucket)
        (done : List Str) (kf : Str) (rest : List Str) (e : S3Error),
      fm (.listObjectsV2 b (normalizeDirectory d)) = none →
      findBucket w b = some bk →
      (matchingKeys bk (normalizeDirectory d)).take w.pageSize = done ++ kf :: rest →
      (∀ k ∈ done, fm (.deleteObject b k) = none) →
      fm (.deleteObject b kf) = some e →
      ∃ w' bk', cl.delete_directory fm w b d =
          ⟨w',
            .listObjectsV2 b (normalizeDirectory d) ::
              (done.map (Call.deleteObject b) ++ [.deleteObject b kf]),
            .info .listObjects ::
              ((done.map (fun _ => LogEntry.info .deleteObject) ++ [.error .deleteObject e]) ++
                [.error .deleteDirectory e]),
            .error e⟩ ∧
        findBucket w' b = some bk' ∧
        bk'.objects = bk.objects.filter (fun o => !(done.contains o.key)) ∧
        (∀ o ∈ bk.objects, o.key ∈ done → o ∉ bk'.objects) ∧
        (∀ o ∈ bk.objects, o.key ∉ done → o ∈ bk'.objects)) ∧
    (∀ (cl : S3Client) (fm : FaultModel) (w : World) (b d : Str) (e : S3Error),
      fm (.listObjectsV2 b (normalizeDirectory d)) = some e →
      cl.delete_directory fm w b d =
        ⟨w, [.listObjectsV2 b (normalizeDirectory d)],
          [.error .listObjects e, .error .deleteDirectory e], .error e⟩) := by
  constructor
  · intro cl fm w b d bk done kf rest e hlist hb hsplit hdone hkf
    obtain ⟨w', heq, hfind⟩ := delete_directory_fail_delete cl d hlist hb hsplit hdone hkf
    refine ⟨w', ⟨bk.name, bk.objects.filter (fun o => !(done.contains o.key))⟩,
      heq, hfind, rfl, ?_, ?_⟩
    · intro o ho hk hmem
      have hmem' : o ∈ bk.objects.filter (fun o => !(done.contains o.key)) := hmem
      rw [List.mem_filter] at hmem'
      have hc : List.elem o.key done = true := List.elem_iff.mpr hk
      have := hmem'.2
      simp [List.contains, hc] at this
      exact this hk
    · intro o ho hk
      show o ∈ bk.objects.filter (fun o => !(done.contains o.key))
      rw [List.mem_filter]
      refine ⟨ho, ?_⟩
      have hc : List.elem o.key done = false := by
        cases h : List.elem o.key done
        · rfl
        · exact absurd (List.elem_iff.mp h) hk
      simp [List.contains, hc]
      exact hk
  · intro cl fm w b d e h
    exact delete_directory_fail_list cl w d h

/-- C4 witness: on the scenario bucket, failing the deletion of
`logs/2.txt` leaves `logs/1.txt` deleted, `logs/2.txt` and `data.csv`
present, and the injected error re-raised. -/
theorem C4_witness :
    (cl0.delete_directory failSecondLog demoWorld (strL "b") (strL "logs")).result =
      .error (.injected 3) := by
  obtain ⟨w', bk', heq, -⟩ := C4_not_atomic.1 cl0 failSecondLog demoWorld (strL "b")
    (strL "logs") demoBucket [strL "logs/1.txt"] (strL "logs/2.txt") [] (.injected 3)
    rfl rfl rfl (by decide) rfl
  rw [heq]

/-- C5: for a non-empty prefix not ending in '/', `delete_directory` is
literally the same computation as with the '/'-terminated prefix: the same
deletions, trace, logs, final state and outcome. -/
theorem C5_trailing_slash_equiv :
    ∀ (cl : S3Client) (fm : FaultModel) (w : World) (b p : Str),
      p ≠ [] → pyEndsWithSlash p = false →
      cl.delete_directory fm w b p = cl.delete_directory fm w b (p ++ ['/']) := by
  intro cl fm w b p hne hsl
  have he : p.isEmpty = false := by
    cases p
    · exact absurd rfl hne
    · rfl
  have h1 : normalizeDirectory p = p ++ ['/'] := by
    simp [normalizeDirectory, he, hsl]
  have h2 : normalizeDirectory (p ++ ['/']) = p ++ ['/'] := by
    simp [normalizeDirectory, pyEndsWithSlash, List.getLast?_concat]
  simp only [S3Client.delete_directory, h1, h2]

/-- C5 witness: prefix `a/b` behaves identically to `a/b/` on the scenario
world. -/
theorem C5_witness :
    cl0.delete_directory noFault demoWorld (strL "b") (strL "a/b") =
      cl0.delete_directory noFault demoWorld (strL "b") (strL "a/b/") := by
  have h := C5_trailing_slash_equiv cl0 noFault demoWorld (strL "b") (strL "a/b")
    (by decide) rfl
  have h2 : strL "a/b" ++ ['/'] = strL "a/b/" := rfl
  rw [h2] at h
  exact h

/-- C6 counterexample: with service page size 1 and two keys starting with
`a`, `list_objects` with prefix `a` does not return all the keys that start
with `a` — the listing is truncated to the first page. -/
theorem C6_counterexample_truncation :
    ¬((cl0.list_objects noFault smallPageWorld (strL "b") (strL "a")).result =
        .ok (matchingKeys smallPageBucket (strL "a"))) := by
  intro h
  have h1 : (cl0.list_objects noFault smallPageWorld (strL "b") (strL "a")).result =
      .ok [strL "a1"] := rfl
  rw [h1] at h
  have h2 : matchingKeys smallPageBucket (strL "a") = [strL "a1", strL "a2"] := rfl
  rw [h2] at h
  exact absurd (Except.ok.inj h) (by decide)

/-- C6 (amended): `list_objects` returns exactly the first page (at most
the service page size) of the bucket's keys that start with the prefix, in
service order; when no key matches, it returns an empty sequence, not an
error. -/
theorem C6_list_matching_amended :
    ∀ (cl : S3Client) (fm : FaultModel) (w : World) (b pfx : Str) (bk : Bucket),
      fm (.listObjectsV2 b pfx) = none → findBucket w b = some bk →
      (cl.list_objects fm w b pfx).result = .ok ((matchingKeys bk pfx).take w.pageSize) ∧
      (matchingKeys bk pfx = [] → (cl.list_objects fm w b pfx).result = .ok []) := by
  intro cl fm w b pfx bk hfm hb
  have h := list_objects_ok cl pfx hfm hb
  constructor
  · rw [h]
  · intro hz
    rw [h, hz, List.take_nil]

/-- C6 witness: a prefix matching nothing yields the empty list, not an
error. -/
theorem C6_witness :
    (cl0.list_objects noFault demoWorld (strL "b") (strL "zzz")).result = .ok [] :=
  (C6_list_matching_amended cl0 noFault demoWorld (strL "b") (strL "zzz") demoBucket
    rfl rfl).2 rfl

/-- C7: `list_objects` issues exactly one underlying `list_objects_v2` call
(no pagination continuation), and when the matching keys exceed the service
page size the caller receives only the first page: a strict subset of the
matches. -/
theorem C7_single_list_request :
    (∀ (cl : S3Client) (fm : FaultModel) (w : World) (b pfx : Str),
      (cl.list_objects fm w b pfx).trace = [.listObjectsV2 b pfx]) ∧
    (∀ (cl : S3Client) (fm : FaultModel) (w : World) (b pfx : Str) (bk : Bucket),
      fm (.listObjectsV2 b pfx) = none → findBucket w b = some bk →
      w.pageSize < (matchingKeys bk pfx).length →
      (cl.list_objects fm w b pfx).result = .ok ((matchingKeys bk pfx).take w.pageSize) ∧
      ((matchingKeys bk pfx).take w.pageSize).length < (matchingKeys bk pfx).length) := by
  constructor
  · intro cl fm w b pfx
    simp only [S3Client.list_objects]
    split <;> rfl
  · intro cl fm w b pfx bk hfm hb hlt
    refine ⟨by rw [list_objects_ok cl pfx hfm hb], ?_⟩
    rw [List.length_take]
    omega

/-- C7 witness: with page size 1 and two matching keys, the single request
returns only the first page. -/
theorem C7_witness :
    (cl0.list_objects noFault smallPageWorld (strL "b") (strL "a")).trace =
      [.listObjectsV2 (strL "b") (strL "a")] ∧
    (cl0.list_objects noFault smallPageWorld (strL "b") (strL "a")).result =
      .ok [strL "a1"] := by
  refine ⟨C7_single_list_request.1 cl0 noFault smallPageWorld (strL "b") (strL "a"), ?_⟩
  have h := (C7_single_list_request.2 cl0 noFault smallPageWorld (strL "b") (strL "a")
    smallPageBucket rfl rfl (by decide)).1
  rw [h]
  rfl

theorem svcGetObject_after_put (w : World) (b k : Str) (content : Bytes) (bk : Bucket)
    (hb : findBucket w b = some bk) :
    svcGetObject (updateBucket w b
      (fun x => { x with objects := x.objects.filter (fun o => o.key != k) ++ [⟨k, content⟩] }))
      b k = .ok content := by
  have hfb := findBucket_updateBucket
    (fun x => { x with objects := x.objects.filter (fun o => o.key != k) ++ [⟨k, content⟩] })
    (fun x => rfl) hb
  have h := find?_key_filter_append bk.objects k content
  simp only [svcGetObject, hfb, h]

/-- C8: uploading a byte buffer with `upload_file_from_bytes` and then
reading the same bucket and key with `get_file_content` returns exactly the
uploaded bytes. -/
theorem C8_roundtrip_identity :
    ∀ (cl : S3Client) (fm : FaultModel) (w : World) (content : Bytes) (b k : Str)
      (bk : Bucket),
      fm (.putObject b k content) = none → fm (.getObject b k) = none →
      findBucket w b = some bk →
      (cl.upload_file_from_bytes fm w content b k).result = .ok () ∧
      (cl.get_file_content fm (cl.upload_file_from_bytes fm w content b k).world b k).result =
        .ok content := by
  intro cl fm w content b k bk hput hget hb
  have hup : cl.upload_file_from_bytes fm w content b k =
      ⟨updateBucket w b
          (fun x => { x with objects := x.objects.filter (fun o => o.key != k) ++ [⟨k, content⟩] }),
        [.putObject b k content], [.info .uploadFileFromBytes], .ok ()⟩ := by
    unfold S3Client.upload_file_from_bytes
    rw [inj_none _ hput]
    unfold svcPutObject
    rw [hb]
  have hw : (cl.upload_file_from_bytes fm w content b k).world =
      updateBucket w b
        (fun x => { x with objects := x.objects.filter (fun o => o.key != k) ++ [⟨k, content⟩] }) := by
    rw [hup]
  constructor
  · rw [hup]
  · rw [hw]
    unfold S3Client.get_file_content
    rw [inj_none _ hget, svcGetObject_after_put w b k content bk hb]

/-- C8 witness: the spec's scenario — uploading the JSON bytes to
`test.json` in bucket `b` and reading them back yields the identical
bytes. -/
theorem C8_witness :
    (cl0.get_file_content noFault
      (cl0.upload_file_from_bytes noFault emptyBWorld demoJsonBytes (strL "b")
        (strL "test.json")).world
      (strL "b") (strL "test.json")).result = .ok demoJsonBytes :=
  (C8_roundtrip_identity cl0 noFault emptyBWorld demoJsonBytes (strL "b") (strL "test.json")
    ⟨strL "b", []⟩ rfl rfl rfl).2

/-- C9 counterexample: a non-`ClientError` failure (a `BotoCoreError`,
e.g. a network error) of the underlying `create_bucket` call is re-raised
to the caller but never logged — the `except` clause at s3_client.py:183
catches only `ClientError` — so it is not true that every failure is first
logged at the point of occurrence.  By contrast the same failure of
`delete_object`, whose clause catches `Exception`, is logged. -/
theorem C9_counterexample_unlogged :
    (cl0.create_bucket failBotoCore demoWorld (strL "b2")).result = .error (.botoCore 9) ∧
    (cl0.create_bucket failBotoCore demoWorld (strL "b2")).logs = [] ∧
    LogEntry.error .createBucket (.botoCore 9) ∉
      (cl0.create_bucket failBotoCore demoWorld (strL "b2")).logs ∧
    (cl0.delete_object failBotoCore demoWorld (strL "b") (strL "data.csv")).logs =
      [.error .deleteObject (.botoCore 9)] := by
  refine ⟨rfl, rfl, ?_, rfl⟩
  have h : (cl0.create_bucket failBotoCore demoWorld (strL "b2")).logs = [] := rfl
  rw [h]
  decide

/-- C9 (amended): for every operation and every failure of the underlying
call, the failure is re-raised unchanged to the caller — never swallowed,
never translated — after exactly one underlying call (no retry).  All
operations except `create_bucket` and `delete_bucket` also log the failure
at the point of occurrence before re-raising; those two log only
`ClientError` failures, and a non-`ClientError` failure propagates
unchanged but without the error log.  For `delete_directory`, a failing
listing is logged by `list_objects`, logged again by the outer handler,
and re-raised unchanged. -/
theorem C9_propagation_amended (cl : S3Client) (fm : FaultModel) (w : World) (e : S3Error) :
    (∀ p b k, fm (.uploadFile p b k) = some e →
      cl.upload_file fm w p b k =
        ⟨w, [.uploadFile p b k], [.error .uploadFile e], .error e⟩) ∧
    (∀ content b k, fm (.putObject b k content) = some e →
      cl.upload_file_from_bytes fm w content b k =
        ⟨w, [.putObject b k content], [.error .uploadFileFromBytes e], .error e⟩) ∧
    (∀ b k, fm (.getObject b k) = some e →
      cl.get_file_content fm w b k =
        ⟨w, [.getObject b k], [.error .getFileContent e], .error e⟩) ∧
    (fm .listBuckets = some e →
      cl.list_buckets fm w = ⟨w, [.listBuckets], [.error .listBuckets e], .error e⟩) ∧
    (∀ b pfx, fm (.listObjectsV2 b pfx) = some e →
      cl.list_objects fm w b pfx =
        ⟨w, [.listObjectsV2 b pfx], [.error .listObjects e], .error e⟩) ∧
    (∀ b k, fm (.deleteObject b k) = some e →
      cl.delete_object fm w b k =
        ⟨w, [.deleteObject b k], [.error .deleteObject e], .error e⟩) ∧
    (∀ b, fm (.createBucket b (some ⟨cl.region⟩)) = some e →
      cl.create_bucket fm w b =
        ⟨w, [.createBucket b (some ⟨cl.region⟩)],
          if e.isClientError then [.error .createBucket e] else [], .error e⟩) ∧
    (∀ b, fm (.deleteBucket b) = some e →
      cl.delete_bucket fm w b =
        ⟨w, [.deleteBucket b],
          if e.isClientError then [.error .deleteBucket e] else [], .error e⟩) ∧
    (∀ b d, fm (.listObjectsV2 b (normalizeDirectory d)) = some e →
      cl.delete_directory fm w b d =
        ⟨w, [.listObjectsV2 b (normalizeDirectory d)],
          [.error .listObjects e, .error .deleteDirectory e], .error e⟩) := by
  refine ⟨?_, ?_, ?_, ?_, ?_, ?_, ?_, ?_, ?_⟩
  · intro p b k h
    unfold S3Client.upload_file
    rw [inj_some _ h]
  · intro content b k h
    unfold S3Client.upload_file_from_bytes
    rw [inj_some _ h]
  · intro b k h
    unfold S3Client.get_file_content
    rw [inj_some _ h]
  · intro h
    unfold S3Client.list_buckets
    rw [inj_some _ h]
  · intro b pfx h
    exact list_objects_fail cl w pfx h
  · intro b k h
    exact delete_object_fail cl w k h
  · intro b h
    unfold S3Client.create_bucket
    rw [inj_some _ h]
  · intro b h
    unfold S3Client.delete_bucket
    rw [inj_some _ h]
  · intro b d h
    exact delete_directory_fail_list cl w d h

/-- C9 witness: an injected failure of the underlying bucket listing is
logged and re-raised unchanged, with exactly one call issued. -/
theorem C9_witness :
    cl0.list_buckets failAll demoWorld =
      ⟨demoWorld, [.listBuckets], [.error .listBuckets (.injected 7)],
        .error (.injected 7)⟩ :=
  (C9_propagation_amended cl0 failAll demoWorld (.injected 7)).2.2.2.1 rfl

/-- C10: `create_bucket` always passes a `CreateBucketConfiguration` whose
`LocationConstraint` is the region the client was constructed with; for a
client constructed with no region the call still carries the configuration,
with `LocationConstraint` `None`, rather than omitting it. -/
theorem C10_create_bucket_location_constraint :
    (∀ (cl : S3Client) (fm : FaultModel) (w : World) (b : Str),
      (cl.create_bucket fm w b).trace = [.createBucket b (some ⟨cl.region⟩)]) ∧
    (∀ (ak sk : Str) (ep : Option Str) (fm : FaultModel) (w : World) (b : Str),
      (S3Client.create_bucket ⟨ak, sk, none, ep⟩ fm w b).trace =
        [.createBucket b (some ⟨none⟩)]) := by
  constructor
  · intro cl fm w b
    simp only [S3Client.create_bucket]
    split <;> rfl
  · intro ak sk ep fm w b
    simp only [S3Client.create_bucket]
    split <;> rfl
